import Mathlib

/-!
Verification of the CDP position-accounting core of the lend module
(`shadows-chain`, `modules/lend`).  The repository ships only the module's
unit tests (`modules/lend/src/tests.rs`) and a mock runtime; the module body
itself (`update_loan`, `adjust_position`, `transfer_loan`,
`confiscate_collateral_and_debit`) is not among the source files, so every
operation below is modelled from the specification's algorithm descriptions
(sections 3, 4.1-4.5) and instantiated with the concrete mock configuration
the unit tests exercise.

Amounts are embedded as `Int` (the source's `Amount` is a signed 128-bit
integer; the checked-arithmetic overflow bound is kept explicit as
`amountMax`).  The double-keyed `(asset, account)` position storage is an
explicit association list with remove-if-zero semantics, as the spec's
design notes direct; absence and the zero position are indistinguishable to
readers via `posLookup`.
-/

namespace ShadowsLend

/-- Account identifiers (`AccountId = u128` in the mock runtime). -/
abbrev AccountId := Nat

/-- Collateral / currency identifiers (`CurrencyId` in the source). -/
abbrev AssetId := Nat

/-- Modelled from the spec: a `Position` record, the per-(asset, account)
ledger entry with pledged collateral and outstanding debit (section 3). -/
structure Position where
  collateral : Int
  debit : Int
deriving DecidableEq, Repr

/-- The zero position; by the store's contract it is identical to an absent
record. -/
def Position.zero : Position := ⟨0, 0⟩

/-- Modelled from the spec: the error taxonomy of section 7 (the subset the
position core itself can raise or propagate). -/
inductive Err where
  | CollateralTooLow
  | DebitTooLow
  | AmountOverflow
  | AssetNotAllowed
  | BelowLiquidationRat
  | ExceedDebitValueCap
  | InsufficientBalance
deriving DecidableEq, Repr

/-- The position store's key: an (asset, account) pair. -/
abbrev PosKey := AssetId × AccountId

/-- The storage representation of all `Position` records: an association
list keyed by (asset, account), holding exactly the records physically
present in storage. -/
abbrev PosStore := List (PosKey × Position)

/-- Modelled from the spec: `get(asset, account)` of the Position Store
(section 4.1) -- returns the zero position if no record is stored. -/
def posLookup (l : PosStore) (k : PosKey) : Position :=
  match l.find? (fun e => decide (e.1 = k)) with
  | some e => e.2
  | none => Position.zero

/-- Remove every record stored under key `k`. -/
def posErase (l : PosStore) (k : PosKey) : PosStore :=
  l.filter (fun e => decide (e.1 ≠ k))

/-- Modelled from the spec: the store's write path -- writing the zero
position removes the record (mandatory reclamation, section 3), any other
value replaces it. -/
def posStore (l : PosStore) (k : PosKey) (p : Position) : PosStore :=
  if p = Position.zero then posErase l k else (k, p) :: posErase l k

/-- Whether a record is physically present under key `k`
(`Positions::contains_key` in the tests). -/
def containsKey (l : PosStore) (k : PosKey) : Bool :=
  l.any (fun e => decide (e.1 = k))

/-- Modelled from the spec: the whole mutable state the position core and
its external collaborators share -- the position store, the per-asset
aggregates, the host ledger's existence reference counts, the multi-currency
free balances, and the recovery pool's bad-debt counter. -/
structure LendState where
  positions : PosStore
  totals : AssetId → Position
  refs : AccountId → Int
  balances : AccountId → AssetId → Int
  debitPool : Int

/-- Upper bound of the checked signed `Amount` arithmetic (`i128`). -/
def amountMax : Int := 2 ^ 127 - 1

/-- Modelled from the spec: the validation phase of `update_loan`
(section 4.2, steps 1-2) -- the first failing check, or `none` when all
checks pass.  The spec lists the collateral underflow check before the debit
underflow check and both before the overflow checks. -/
def updChecks (who : AccountId) (asset : AssetId) (cd dd : Int) (s : LendState) : Option Err :=
  let old := posLookup s.positions (asset, who)
  if old.collateral + cd < 0 then some .CollateralTooLow
  else if old.debit + dd < 0 then some .DebitTooLow
  else if amountMax < old.collateral + cd then some .AmountOverflow
  else if amountMax < old.debit + dd then some .AmountOverflow
  else none

/-- Modelled from the spec: the commit phase of `update_loan` (section 4.2,
steps 3-4) -- write the new position (remove-if-zero), fire the existence
reference-count transition (at most one per call), and update the per-asset
aggregate incrementally by the same deltas. -/
def updApply (who : AccountId) (asset : AssetId) (cd dd : Int) (s : LendState) : LendState :=
  let old := posLookup s.positions (asset, who)
  let newPos : Position := ⟨old.collateral + cd, old.debit + dd⟩
  let t := s.totals asset
  { s with
    positions := posStore s.positions (asset, who) newPos
    totals := fun a => if a = asset then ⟨t.collateral + cd, t.debit + dd⟩ else s.totals a
    refs := fun a =>
      if a = who then
        if old = Position.zero ∧ newPos ≠ Position.zero then s.refs a + 1
        else if old ≠ Position.zero ∧ newPos = Position.zero then s.refs a - 1
        else s.refs a
      else s.refs a }

/-- Modelled from the spec: `update_loan(account, asset, collateral_delta,
debit_delta)` (section 4.2) -- validate, then commit; bookkeeping only, no
balance movement. -/
def update_loan (who : AccountId) (asset : AssetId) (cd dd : Int) (s : LendState) :
    Except Err LendState :=
  match updChecks who asset cd dd s with
  | some e => .error e
  | none => .ok (updApply who asset cd dd s)

/-- Modelled from the spec: the Currency collaborator's
`transfer(from, to, asset, amount)` (section 6) -- fails with
`InsufficientBalance` when the payer cannot cover the amount, otherwise
moves it between the two free balances. -/
def transferBal (src dst : AccountId) (asset : AssetId) (amt : Nat) (s : LendState) :
    Except Err LendState :=
  if s.balances src asset < (amt : Int) then .error .InsufficientBalance
  else .ok { s with
    balances := fun a c =>
      s.balances a c
        + (if a = dst ∧ c = asset then (amt : Int) else 0)
        - (if a = src ∧ c = asset then (amt : Int) else 0) }

/-- Modelled from the spec: the static configuration of the module -- the
stablecoin id, the module escrow account, the recovery-pool (treasury)
account, the allowed-collateral set, the external risk oracle, the per-asset
debit ceiling, and the per-asset exchange rate converting debit units to
stablecoin value (sections 3 and 6; one rate, owned by the external
risk/interest subsystem, consulted by both composite operations). -/
structure Config where
  stableAsset : AssetId
  escrow : AccountId
  treasury : AccountId
  validAsset : AssetId → Bool
  isValidPosition : AssetId → Int → Int → Bool
  debitCapOk : AssetId → Int → Bool
  debitToStable : AssetId → Int → Int

/-- Modelled from the spec: `adjust_position(account, asset,
collateral_delta, debit_delta)` (section 4.3) -- validation strictly first
(allowed asset, risk oracle on the resulting position, debit ceiling against
the incrementally adjusted aggregate), then the loan update, then the
collateral transfer with the escrow, then stablecoin disbursement when the
debit grew; any sub-step failure aborts the whole operation. -/
def adjust_position (cfg : Config) (who : AccountId) (asset : AssetId) (cd dd : Int)
    (s : LendState) : Except Err LendState :=
  let old := posLookup s.positions (asset, who)
  if cfg.validAsset asset = false then .error .AssetNotAllowed
  else if cfg.isValidPosition asset (old.collateral + cd) (old.debit + dd) = false then
    .error .BelowLiquidationRat
  else if cfg.debitCapOk asset ((s.totals asset).debit + dd) = false then
    .error .ExceedDebitValueCap
  else
    match update_loan who asset cd dd s with
    | .error e => .error e
    | .ok s1 =>
      match
        if 0 ≤ cd then transferBal who cfg.escrow asset cd.toNat s1
        else transferBal cfg.escrow who asset (-cd).toNat s1
      with
      | .error e => .error e
      | .ok s2 =>
        .ok <|
          if 0 < dd then
            { s2 with
              balances := fun a c =>
                if a = who ∧ c = cfg.stableAsset then
                  s2.balances a c + cfg.debitToStable asset dd
                else s2.balances a c }
          else s2

/-- Modelled from the spec: `transfer_loan(from, to, asset)` (section 4.4)
-- read `from`'s position once, credit it to `to`, then debit it from
`from`, in that order. -/
def transfer_loan (src dst : AccountId) (asset : AssetId) (s : LendState) :
    Except Err LendState :=
  let p := posLookup s.positions (asset, src)
  match update_loan dst asset p.collateral p.debit s with
  | .error e => .error e
  | .ok s1 => update_loan src asset (-p.collateral) (-p.debit) s1

/-- Modelled from the spec: `confiscate_collateral_and_debit(account, asset,
collateral_amount, debit_amount)` (section 4.5) -- move the confiscated
collateral from escrow to the recovery-pool account (failing with
`InsufficientBalance` before any ledger mutation when escrow cannot supply
it), record the confiscated debit's stablecoin value in the recovery pool's
debt counter, then shrink the position by the confiscated amounts. -/
def confiscate_collateral_and_debit (cfg : Config) (who : AccountId) (asset : AssetId)
    (colAmt debAmt : Nat) (s : LendState) : Except Err LendState :=
  match transferBal cfg.escrow cfg.treasury asset colAmt s with
  | .error e => .error e
  | .ok s1 =>
    update_loan who asset (-(colAmt : Int)) (-(debAmt : Int))
      { s1 with debitPool := s1.debitPool + cfg.debitToStable asset (debAmt : Int) }

/-- One position-mutating operation of the core, for reachability. -/
inductive Op where
  | upd (who : AccountId) (asset : AssetId) (cd dd : Int)
  | adj (who : AccountId) (asset : AssetId) (cd dd : Int)
  | xfer (src dst : AccountId) (asset : AssetId)
  | conf (who : AccountId) (asset : AssetId) (colAmt debAmt : Nat)

/-- Run one operation against a state. -/
def execOp (cfg : Config) (s : LendState) : Op → Except Err LendState
  | .upd who asset cd dd => update_loan who asset cd dd s
  | .adj who asset cd dd => adjust_position cfg who asset cd dd s
  | .xfer src dst asset => transfer_loan src dst asset s
  | .conf who asset colAmt debAmt => confiscate_collateral_and_debit cfg who asset colAmt debAmt s

/-- The state an operation's result commits: a successful result commits its
new state, a failed one commits the prior state unchanged (the
commit-or-noop contract of section 5). -/
def commit (r : Except Err LendState) (s : LendState) : LendState :=
  match r with
  | .ok s1 => s1
  | .error _ => s

/-- The observable transition of one operation. -/
def applyOp (cfg : Config) (s : LendState) (op : Op) : LendState :=
  commit (execOp cfg s op) s

/-- A genesis state: no positions, zero aggregates, zero reference counts,
arbitrary initial free balances, an empty recovery pool. -/
def genesis (bal : AccountId → AssetId → Int) : LendState :=
  { positions := []
    totals := fun _ => Position.zero
    refs := fun _ => 0
    balances := bal
    debitPool := 0 }

/-- The state after a sequence of operations from a genesis state. -/
def reach (cfg : Config) (bal : AccountId → AssetId → Int) (ops : List Op) : LendState :=
  ops.foldl (applyOp cfg) (genesis bal)

/-! Concrete constants of the unit-test runtime. -/

/-- Test account `ALICE`. -/
def ALICE : AccountId := 1

/-- Test account `BOB`. -/
def BOB : AccountId := 2

/-- Test collateral asset `BTC`. -/
def BTC : AssetId := 1

/-- Test collateral asset `DOT` (the mock risk oracle rejects every `DOT`
position). -/
def DOT : AssetId := 2

/-- The stablecoin `XUSD`. -/
def XUSD : AssetId := 3

/-- The lend module's escrow account (`LendModule::account_id()`). -/
def ESCROW : AccountId := 100

/-- The recovery-pool (debt treasury) account. -/
def TREASURY : AccountId := 101

/-- Modelled from the spec: the mock configuration the unit tests run under
-- `BTC` and `DOT` are allowed collateral, the mock oracle rejects every
`DOT` position, the mock `BTC` debit-ceiling check rejects exactly an
aggregate debit of 1000, and the `BTC` debit-to-stablecoin rate is one half
(test scenarios 7 and 8: debit 300 disburses 150 stablecoin, confiscated
debit 200 records 100). -/
def testConfig : Config :=
  { stableAsset := XUSD
    escrow := ESCROW
    treasury := TREASURY
    validAsset := fun a => decide (a = BTC ∨ a = DOT)
    isValidPosition := fun a _ _ => decide (a ≠ DOT)
    debitCapOk := fun a t => decide (¬(a = BTC ∧ t = 1000))
    debitToStable := fun a d => if a = BTC then d / 2 else d }

/-- The unit tests' genesis balances: `ALICE` owns 1000 `BTC`, every other
free balance starts at zero. -/
def testBal : AccountId → AssetId → Int :=
  fun a c => if a = ALICE ∧ c = BTC then 1000 else 0

/-- The unit tests' initial state. -/
def testInit : LendState := genesis testBal

/-- The sum, over every stored record of asset `a`, of one `Position` field;
with remove-if-zero storage this is the sum over all accounts, since every
unstored position is zero. -/
def entrySum (f : Position → Int) (l : PosStore) (a : AssetId) : Int :=
  (l.map (fun e => if e.1.1 = a then f e.2 else 0)).sum

/-! Position-store lemmas. -/

variable {l : PosStore} {e : PosKey × Position} {k k' : PosKey} {p : Position}
variable {f : Position → Int} {a : AssetId}

lemma posLookup_nil : posLookup [] k = Position.zero := rfl

lemma posLookup_cons : posLookup (e :: l) k = if e.1 = k then e.2 else posLookup l k := by
  unfold posLookup
  by_cases h : e.1 = k
  · rw [List.find?_cons_of_pos _ (by simp [h]), if_pos h]
  · rw [List.find?_cons_of_neg _ (by simp [h]), if_neg h]

lemma posErase_cons :
    posErase (e :: l) k = if e.1 = k then posErase l k else e :: posErase l k := by
  by_cases h : e.1 = k <;> simp [posErase, List.filter_cons, h]

lemma posLookup_eq_zero_of_not_mem (h : k ∉ l.map Prod.fst) : posLookup l k = Position.zero := by
  induction l with
  | nil => rfl
  | cons e l ih =>
    simp only [List.map_cons, List.mem_cons, not_or] at h
    rw [posLookup_cons, if_neg (fun hh => h.1 hh.symm), ih h.2]

lemma posErase_eq_self_of_not_mem (h : k ∉ l.map Prod.fst) : posErase l k = l := by
  induction l with
  | nil => rfl
  | cons e l ih =>
    simp only [List.map_cons, List.mem_cons, not_or] at h
    rw [posErase_cons, if_neg (fun hh => h.1 hh.symm), ih h.2]

lemma not_mem_keys_posErase : k ∉ (posErase l k).map Prod.fst := by
  intro hmem
  obtain ⟨x, hx, hk⟩ := List.mem_map.1 hmem
  have := (List.mem_filter.1 hx).2
  simp only [decide_eq_true_eq] at this
  exact this hk

lemma keys_posErase_nodup (h : (l.map Prod.fst).Nodup) :
    ((posErase l k).map Prod.fst).Nodup :=
  ((l.filter_sublist).map Prod.fst).nodup h

lemma keys_posStore_nodup (h : (l.map Prod.fst).Nodup) :
    ((posStore l k p).map Prod.fst).Nodup := by
  unfold posStore; split
  · exact keys_posErase_nodup h
  · exact List.nodup_cons.2 ⟨not_mem_keys_posErase, keys_posErase_nodup h⟩

lemma posLookup_posErase_ne (h : k' ≠ k) :
    posLookup (posErase l k) k' = posLookup l k' := by
  induction l with
  | nil => rfl
  | cons e l ih =>
    rw [posErase_cons]
    by_cases he : e.1 = k
    · rw [if_pos he, ih, posLookup_cons, if_neg (fun hh => h (hh.symm.trans he))]
    · rw [if_neg he, posLookup_cons, posLookup_cons, ih]

lemma posLookup_posStore_self : posLookup (posStore l k p) k = p := by
  unfold posStore; split
  · next hz => rw [posLookup_eq_zero_of_not_mem not_mem_keys_posErase, hz]
  · rw [posLookup_cons, if_pos rfl]

lemma posLookup_posStore_ne (h : k' ≠ k) :
    posLookup (posStore l k p) k' = posLookup l k' := by
  unfold posStore; split
  · exact posLookup_posErase_ne h
  · rw [posLookup_cons, if_neg (fun hh => h hh.symm), posLookup_posErase_ne h]

lemma containsKey_eq_true_iff : containsKey l k = true ↔ k ∈ l.map Prod.fst := by
  simp only [containsKey, List.any_eq_true, decide_eq_true_eq, List.mem_map]

lemma containsKey_posErase_self : containsKey (posErase l k) k = false := by
  cases hc : containsKey (posErase l k) k
  · rfl
  · exact absurd (containsKey_eq_true_iff.1 hc) not_mem_keys_posErase

lemma containsKey_posStore_self :
    containsKey (posStore l k p) k = decide (p ≠ Position.zero) := by
  unfold posStore; split
  · next hz => subst hz; simp [containsKey_posErase_self]
  · next hz => simp [containsKey, hz]

lemma entrySum_nil : entrySum f [] a = 0 := rfl

lemma entrySum_cons :
    entrySum f (e :: l) a = (if e.1.1 = a then f e.2 else 0) + entrySum f l a := by
  simp [entrySum]

lemma entrySum_erase (h : (l.map Prod.fst).Nodup) (hf : f Position.zero = 0) :
    entrySum f (posErase l k) a
      = entrySum f l a - (if k.1 = a then f (posLookup l k) else 0) := by
  induction l with
  | nil => simp [posErase, entrySum, posLookup_nil, hf]
  | cons e l ih =>
    simp only [List.map_cons, List.nodup_cons] at h
    rw [posErase_cons]
    by_cases he : e.1 = k
    · rw [if_pos he, posErase_eq_self_of_not_mem (he ▸ h.1), posLookup_cons, if_pos he,
        entrySum_cons, ← he]
      omega
    · rw [if_neg he, entrySum_cons, entrySum_cons, posLookup_cons, if_neg he, ih h.2]
      omega

lemma entrySum_store (h : (l.map Prod.fst).Nodup) (hf : f Position.zero = 0) :
    entrySum f (posStore l k p) a
      = entrySum f l a - (if k.1 = a then f (posLookup l k) else 0)
        + (if k.1 = a then f p else 0) := by
  unfold posStore; split
  · next hz => rw [entrySum_erase h hf, hz]; simp [hf]
  · rw [entrySum_cons, entrySum_erase h hf]
    have h1 : ((k, p) : PosKey × Position).1.1 = k.1 := rfl
    have h2 : ((k, p) : PosKey × Position).2 = p := rfl
    rw [h1, h2]
    omega

lemma collateral_zero : Position.collateral Position.zero = 0 := rfl

lemma debit_zero : Position.debit Position.zero = 0 := rfl

/-! Loan-updater lemmas. -/

variable {cfg : Config} {who src dst b : AccountId} {asset c : AssetId}
variable {cd dd : Int} {amt colAmt debAmt : Nat} {s s' s1 s2 : LendState} {er : Err}

lemma update_loan_eq_ok_iff :
    update_loan who asset cd dd s = .ok s'
      ↔ updChecks who asset cd dd s = none ∧ s' = updApply who asset cd dd s := by
  unfold update_loan
  cases h : updChecks who asset cd dd s <;> simp [h, eq_comm]

lemma updChecks_eq_none_iff :
    updChecks who asset cd dd s = none
      ↔ 0 ≤ (posLookup s.positions (asset, who)).collateral + cd
        ∧ 0 ≤ (posLookup s.positions (asset, who)).debit + dd
        ∧ (posLookup s.positions (asset, who)).collateral + cd ≤ amountMax
        ∧ (posLookup s.positions (asset, who)).debit + dd ≤ amountMax := by
  unfold updChecks
  simp only []
  split_ifs <;> simp_all

lemma updApply_positions :
    (updApply who asset cd dd s).positions
      = posStore s.positions (asset, who)
          ⟨(posLookup s.positions (asset, who)).collateral + cd,
            (posLookup s.positions (asset, who)).debit + dd⟩ := rfl

lemma updApply_totals_self :
    (updApply who asset cd dd s).totals asset
      = ⟨(s.totals asset).collateral + cd, (s.totals asset).debit + dd⟩ := by
  simp [updApply]

lemma updApply_totals_ne (h : c ≠ asset) :
    (updApply who asset cd dd s).totals c = s.totals c := by
  simp [updApply, h]

lemma updApply_balances : (updApply who asset cd dd s).balances = s.balances := rfl

lemma updApply_debitPool : (updApply who asset cd dd s).debitPool = s.debitPool := rfl

lemma updApply_refs_ne (h : b ≠ who) :
    (updApply who asset cd dd s).refs b = s.refs b := by
  simp [updApply, h]

lemma transferBal_ok_frame (hok : transferBal src dst asset amt s = .ok s') :
    s'.positions = s.positions ∧ s'.totals = s.totals ∧ s'.refs = s.refs
      ∧ s'.debitPool = s.debitPool := by
  unfold transferBal at hok
  split at hok
  · exact absurd hok (by simp)
  · simp only [Except.ok.injEq] at hok
    subst hok
    exact ⟨rfl, rfl, rfl, rfl⟩

lemma transferBal_ok_balances (hok : transferBal src dst asset amt s = .ok s') :
    s'.balances = fun a c =>
      s.balances a c
        + (if a = dst ∧ c = asset then (amt : Int) else 0)
        - (if a = src ∧ c = asset then (amt : Int) else 0) := by
  unfold transferBal at hok
  split at hok
  · exact absurd hok (by simp)
  · simp only [Except.ok.injEq] at hok
    subst hok
    rfl

/-! The aggregate-consistency invariant (section 3) and its preservation. -/

/-- The representation invariant of the position store: stored keys are
unique, and every per-asset aggregate equals the sum of the stored
positions of that asset, field by field. -/
def Inv (s : LendState) : Prop :=
  (s.positions.map Prod.fst).Nodup
    ∧ ∀ a, (s.totals a).collateral = entrySum Position.collateral s.positions a
        ∧ (s.totals a).debit = entrySum Position.debit s.positions a

lemma inv_genesis (bal : AccountId → AssetId → Int) : Inv (genesis bal) := by
  refine ⟨by simp [genesis], fun a => ?_⟩
  simp [genesis, entrySum, Position.zero]

lemma inv_updApply (h : Inv s) : Inv (updApply who asset cd dd s) := by
  obtain ⟨hk, ht⟩ := h
  refine ⟨keys_posStore_nodup hk, fun a => ?_⟩
  have h1 := (ht a).1
  have h2 := (ht a).2
  by_cases ha : a = asset
  · subst ha
    rw [updApply_totals_self, updApply_positions]
    constructor
    · rw [entrySum_store hk collateral_zero]
      simp
      omega
    · rw [entrySum_store hk debit_zero]
      simp
      omega
  · have ha2 : asset ≠ a := fun hh => ha hh.symm
    rw [updApply_totals_ne ha, updApply_positions]
    constructor
    · rw [entrySum_store hk collateral_zero]
      simp [ha2]
      omega
    · rw [entrySum_store hk debit_zero]
      simp [ha2]
      omega

lemma inv_update_loan (h : Inv s) (hok : update_loan who asset cd dd s = .ok s') :
    Inv s' := by
  obtain ⟨-, hs⟩ := update_loan_eq_ok_iff.1 hok
  exact hs ▸ inv_updApply h

lemma inv_of_positions_totals_eq (h : Inv s) (hp : s'.positions = s.positions)
    (ht : s'.totals = s.totals) : Inv s' := by
  rw [Inv, hp, ht]
  exact h

lemma inv_adjust_position (h : Inv s)
    (hok : adjust_position cfg who asset cd dd s = .ok s') : Inv s' := by
  unfold adjust_position at hok
  simp only [] at hok
  split at hok
  · exact absurd hok (by simp)
  split at hok
  · exact absurd hok (by simp)
  split at hok
  · exact absurd hok (by simp)
  split at hok
  · exact absurd hok (by simp)
  next t1 heq =>
  split at hok
  · exact absurd hok (by simp)
  next t2 heq2 =>
  simp only [Except.ok.injEq] at hok
  subst hok
  have hinv1 := inv_update_loan h heq
  have hfr : t2.positions = t1.positions ∧ t2.totals = t1.totals := by
    split at heq2
    · exact ⟨(transferBal_ok_frame heq2).1, (transferBal_ok_frame heq2).2.1⟩
    · exact ⟨(transferBal_ok_frame heq2).1, (transferBal_ok_frame heq2).2.1⟩
  apply inv_of_positions_totals_eq hinv1 <;> split <;> simp [hfr.1, hfr.2]

lemma inv_transfer_loan (h : Inv s) (hok : transfer_loan src dst asset s = .ok s') :
    Inv s' := by
  unfold transfer_loan at hok
  simp only [] at hok
  split at hok
  · exact absurd hok (by simp)
  next t1 heq => exact inv_update_loan (inv_update_loan h heq) hok

lemma inv_confiscate (h : Inv s)
    (hok : confiscate_collateral_and_debit cfg who asset colAmt debAmt s = .ok s') :
    Inv s' := by
  unfold confiscate_collateral_and_debit at hok
  split at hok
  · exact absurd hok (by simp)
  next t1 heq =>
  have hfr := transferBal_ok_frame heq
  exact inv_update_loan
    (inv_of_positions_totals_eq h (by simp [hfr.1]) (by simp [hfr.2.1])) hok

lemma inv_commit {r : Except Err LendState} (h : Inv s)
    (hr : ∀ t, r = .ok t → Inv t) : Inv (commit r s) := by
  cases r with
  | error e => exact h
  | ok t => exact hr t rfl

lemma inv_applyOp (h : Inv s) (op : Op) : Inv (applyOp cfg s op) := by
  cases op with
  | upd who asset cd dd => exact inv_commit h (fun t ht => inv_update_loan h ht)
  | adj who asset cd dd => exact inv_commit h (fun t ht => inv_adjust_position h ht)
  | xfer src dst asset => exact inv_commit h (fun t ht => inv_transfer_loan h ht)
  | conf who asset colAmt debAmt => exact inv_commit h (fun t ht => inv_confiscate h ht)

lemma inv_foldl (h : Inv s) (ops : List Op) : Inv (ops.foldl (applyOp cfg) s) := by
  induction ops generalizing s with
  | nil => exact h
  | cons op ops ih => exact ih (inv_applyOp h op)

/-! Concrete scenario states of the unit tests, used by witnesses and
counterexamples. -/

/-- The state of test `adjust_position_should_work` after the successful
adjustment: `ALICE` holds position `(500, 300)` on `BTC` and the escrow
holds 500 `BTC`. -/
def confSetup : LendState :=
  commit (adjust_position testConfig ALICE BTC 500 300 testInit) testInit

/-- The state of test `transfer_loan_should_work` after `ALICE` opens the
position `(400, 500)` on `BTC`. -/
def xferSetup : LendState :=
  commit (update_loan ALICE BTC 400 500 testInit) testInit

/-- The state of test `transfer_loan_should_work` after `BOB` additionally
opens the position `(100, 600)` on `BTC`. -/
def xferSetup2 : LendState :=
  commit (update_loan BOB BTC 100 600 xferSetup) xferSetup

/-! The claims. -/

/-- Claim C1: whenever `update_loan` accepts a pair of deltas, the account's
position moves by exactly those deltas, the asset's `TotalPositions`
aggregate moves by exactly the same deltas, and nothing else changes --
every other stored position and every other asset's aggregate is
untouched. -/
theorem update_loan_exact_deltas (who : AccountId) (asset : AssetId) (cd dd : Int)
    (s s' : LendState) (h : update_loan who asset cd dd s = .ok s') :
    posLookup s'.positions (asset, who)
        = ⟨(posLookup s.positions (asset, who)).collateral + cd,
            (posLookup s.positions (asset, who)).debit + dd⟩
      ∧ s'.totals asset
        = ⟨(s.totals asset).collateral + cd, (s.totals asset).debit + dd⟩
      ∧ (∀ k : PosKey, k ≠ (asset, who)
          → posLookup s'.positions k = posLookup s.positions k)
      ∧ (∀ c : AssetId, c ≠ asset → s'.totals c = s.totals c) := by
  obtain ⟨-, rfl⟩ := update_loan_eq_ok_iff.1 h
  refine ⟨?_, updApply_totals_self, ?_, fun c hc => updApply_totals_ne hc⟩
  · rw [updApply_positions, posLookup_posStore_self]
  · intro k hk
    rw [updApply_positions, posLookup_posStore_ne hk]

set_option maxRecDepth 8192 in
/-- Witness for C1: the first `update_loan` call of test
`update_loan_should_work`, deltas `(3000, 2000)` from the empty position. -/
theorem update_loan_exact_deltas_witness :
    posLookup (commit (update_loan ALICE BTC 3000 2000 testInit) testInit).positions
        (BTC, ALICE)
        = ⟨(posLookup testInit.positions (BTC, ALICE)).collateral + 3000,
            (posLookup testInit.positions (BTC, ALICE)).debit + 2000⟩
      ∧ (commit (update_loan ALICE BTC 3000 2000 testInit) testInit).totals BTC
        = ⟨(testInit.totals BTC).collateral + 3000, (testInit.totals BTC).debit + 2000⟩
      ∧ (∀ k : PosKey, k ≠ (BTC, ALICE)
          → posLookup (commit (update_loan ALICE BTC 3000 2000 testInit) testInit).positions k
            = posLookup testInit.positions k)
      ∧ (∀ c : AssetId, c ≠ BTC
          → (commit (update_loan ALICE BTC 3000 2000 testInit) testInit).totals c
            = testInit.totals c) :=
  update_loan_exact_deltas ALICE BTC 3000 2000 testInit
    (commit (update_loan ALICE BTC 3000 2000 testInit) testInit) rfl

/-- Claim C2: in every state reachable from a genesis state by any sequence
of the four mutating operations, every asset's aggregate equals the sum of
the stored positions of that asset, field by field (every unstored position
is zero, so this is the sum over all accounts). -/
theorem reach_totals_eq_sum (cfg : Config) (bal : AccountId → AssetId → Int)
    (ops : List Op) (a : AssetId) :
    ((reach cfg bal ops).totals a).collateral
        = entrySum Position.collateral (reach cfg bal ops).positions a
      ∧ ((reach cfg bal ops).totals a).debit
        = entrySum Position.debit (reach cfg bal ops).positions a :=
  (inv_foldl (inv_genesis bal) ops).2 a

/-- Claim C3 (amended): `update_loan` returns `CollateralTooLow` exactly when
the existing collateral plus its delta is negative; it returns `DebitTooLow`
exactly when the existing debit plus its delta is negative AND the collateral
check passed (the collateral check runs first, so when both sums are negative
only `CollateralTooLow` is reported); and in every failure case nothing is
committed: the committed state is the prior state, records untouched. -/
theorem update_loan_underflow_errors (who : AccountId) (asset : AssetId)
    (cd dd : Int) (s : LendState) :
    (update_loan who asset cd dd s = .error .CollateralTooLow
        ↔ (posLookup s.positions (asset, who)).collateral + cd < 0)
      ∧ (update_loan who asset cd dd s = .error .DebitTooLow
        ↔ 0 ≤ (posLookup s.positions (asset, who)).collateral + cd
            ∧ (posLookup s.positions (asset, who)).debit + dd < 0)
      ∧ ∀ e, update_loan who asset cd dd s = .error e
          → commit (update_loan who asset cd dd s) s = s := by
  refine ⟨?_, ?_, ?_⟩
  · unfold update_loan updChecks
    simp only []
    split_ifs <;> simp_all
  · unfold update_loan updChecks
    simp only []
    split_ifs <;> simp_all
  · intro e he
    rw [he]
    rfl

/-- Counterexample to C3 as stated: with both new values negative the call
reports `CollateralTooLow`, not `DebitTooLow`, although the existing debit
plus its delta is negative -- the two biconditionals of the claim cannot both
hold. -/
theorem update_loan_underflow_counterexample :
    update_loan ALICE BTC (-1) (-1) testInit = .error .CollateralTooLow
      ∧ (posLookup testInit.positions (BTC, ALICE)).debit + (-1) < 0
      ∧ Err.CollateralTooLow ≠ Err.DebitTooLow :=
  ⟨rfl, by decide, by decide⟩

/-- Claim C4: a successful `update_loan` fires at most one existence
transition: when the position moves from zero/absent to nonzero the record
is stored and the account's reference count rises by exactly 1; when it
moves from nonzero to zero the record is removed and the count falls by
exactly 1; a nonzero-to-nonzero (or zero-to-zero) mutation leaves the count
unchanged, whichever fields moved, and other accounts' counts never
change. -/
theorem update_loan_refcount_transitions (who : AccountId) (asset : AssetId)
    (cd dd : Int) (s s' : LendState) (h : update_loan who asset cd dd s = .ok s') :
    (posLookup s.positions (asset, who) = Position.zero
        → (⟨(posLookup s.positions (asset, who)).collateral + cd,
              (posLookup s.positions (asset, who)).debit + dd⟩ : Position) ≠ Position.zero
        → s'.refs who = s.refs who + 1 ∧ containsKey s'.positions (asset, who) = true)
      ∧ (posLookup s.positions (asset, who) ≠ Position.zero
        → (⟨(posLookup s.positions (asset, who)).collateral + cd,
              (posLookup s.positions (asset, who)).debit + dd⟩ : Position) = Position.zero
        → s'.refs who = s.refs who - 1 ∧ containsKey s'.positions (asset, who) = false)
      ∧ (posLookup s.positions (asset, who) ≠ Position.zero
        → (⟨(posLookup s.positions (asset, who)).collateral + cd,
              (posLookup s.positions (asset, who)).debit + dd⟩ : Position) ≠ Position.zero
        → s'.refs who = s.refs who)
      ∧ (posLookup s.positions (asset, who) = Position.zero
        → (⟨(posLookup s.positions (asset, who)).collateral + cd,
              (posLookup s.positions (asset, who)).debit + dd⟩ : Position) = Position.zero
        → s'.refs who = s.refs who)
      ∧ (∀ b : AccountId, b ≠ who → s'.refs b = s.refs b) := by
  obtain ⟨-, rfl⟩ := update_loan_eq_ok_iff.1 h
  refine ⟨fun h0 h1 => ⟨?_, ?_⟩, fun h0 h1 => ⟨?_, ?_⟩, fun h0 h1 => ?_, fun h0 h1 => ?_,
    fun b hb => updApply_refs_ne hb⟩
  · rw [h0] at h1
    simp [updApply, h0, h1]
  · rw [updApply_positions, containsKey_posStore_self]
    simp [h1]
  · simp [updApply, h0, h1]
  · rw [updApply_positions, containsKey_posStore_self]
    simp [h1]
  · simp [updApply, h0, h1]
  · rw [h0] at h1
    simp [updApply, h0, h1]

set_option maxRecDepth 8192 in
/-- Witness for C4: the opening `update_loan` of test
`update_loan_should_work` creates the record and takes `ALICE`'s reference
count from 0 to 1. -/
theorem update_loan_refcount_transitions_witness :
    (posLookup testInit.positions (BTC, ALICE) = Position.zero
        → (⟨(posLookup testInit.positions (BTC, ALICE)).collateral + 3000,
              (posLookup testInit.positions (BTC, ALICE)).debit + 2000⟩ : Position)
            ≠ Position.zero
        → (commit (update_loan ALICE BTC 3000 2000 testInit) testInit).refs ALICE
              = testInit.refs ALICE + 1
          ∧ containsKey
              (commit (update_loan ALICE BTC 3000 2000 testInit) testInit).positions
              (BTC, ALICE) = true)
      ∧ (posLookup testInit.positions (BTC, ALICE) ≠ Position.zero
        → (⟨(posLookup testInit.positions (BTC, ALICE)).collateral + 3000,
              (posLookup testInit.positions (BTC, ALICE)).debit + 2000⟩ : Position)
            = Position.zero
        → (commit (update_loan ALICE BTC 3000 2000 testInit) testInit).refs ALICE
              = testInit.refs ALICE - 1
          ∧ containsKey
              (commit (update_loan ALICE BTC 3000 2000 testInit) testInit).positions
              (BTC, ALICE) = false)
      ∧ (posLookup testInit.positions (BTC, ALICE) ≠ Position.zero
        → (⟨(posLookup testInit.positions (BTC, ALICE)).collateral + 3000,
              (posLookup testInit.positions (BTC, ALICE)).debit + 2000⟩ : Position)
            ≠ Position.zero
        → (commit (update_loan ALICE BTC 3000 2000 testInit) testInit).refs ALICE
            = testInit.refs ALICE)
      ∧ (posLookup testInit.positions (BTC, ALICE) = Position.zero
        → (⟨(posLookup testInit.positions (BTC, ALICE)).collateral + 3000,
              (posLookup testInit.positions (BTC, ALICE)).debit + 2000⟩ : Position)
            = Position.zero
        → (commit (update_loan ALICE BTC 3000 2000 testInit) testInit).refs ALICE
            = testInit.refs ALICE)
      ∧ (∀ b : AccountId, b ≠ ALICE
        → (commit (update_loan ALICE BTC 3000 2000 testInit) testInit).refs b
            = testInit.refs b) :=
  update_loan_refcount_transitions ALICE BTC 3000 2000 testInit
    (commit (update_loan ALICE BTC 3000 2000 testInit) testInit) rfl

/-- Claim C5: whenever `adjust_position` returns an error -- rejected asset,
failed risk-oracle validity check, exceeded debit cap, insufficient balance
for the collateral movement, or a loan-update failure -- nothing is
committed: the committed state is exactly the prior state, so every free
balance (the account's, the escrow's and everyone else's), every stablecoin
balance, every `Position` record and every `TotalPositions` record is as it
was before the call. -/
theorem adjust_position_error_frame (cfg : Config) (who : AccountId) (asset : AssetId)
    (cd dd : Int) (s : LendState) (e : Err)
    (h : adjust_position cfg who asset cd dd s = .error e) :
    commit (adjust_position cfg who asset cd dd s) s = s := by
  rw [h]
  rfl

set_option maxRecDepth 8192 in
/-- Witness for C5: the first rejected call of test
`adjust_position_should_work` -- `ALICE` cannot cover a 2000 `BTC` deposit
with a balance of 1000, and the committed state is the initial state. -/
theorem adjust_position_error_frame_witness :
    commit (adjust_position testConfig ALICE BTC 2000 0 testInit) testInit = testInit :=
  adjust_position_error_frame testConfig ALICE BTC 2000 0 testInit
    .InsufficientBalance rfl

/-- Claim C6 (amended): a successful confiscation shrinks the target
position by exactly the confiscated amounts, moves exactly the confiscated
collateral from escrow to the recovery-pool account, and grows the recovery
pool's debt counter by the stablecoin VALUE of the confiscated debit under
the configured debit-exchange rate (not by the raw debit amount); when the
escrow cannot supply the collateral the call fails with
`InsufficientBalance` and commits nothing. -/
theorem confiscate_collateral_and_debit_spec (cfg : Config) (who : AccountId)
    (asset : AssetId) (colAmt debAmt : Nat) (s : LendState)
    (hwf : cfg.escrow ≠ cfg.treasury) :
    (∀ s', confiscate_collateral_and_debit cfg who asset colAmt debAmt s = .ok s'
      → posLookup s'.positions (asset, who)
          = ⟨(posLookup s.positions (asset, who)).collateral - (colAmt : Int),
              (posLookup s.positions (asset, who)).debit - (debAmt : Int)⟩
        ∧ s'.balances cfg.treasury asset = s.balances cfg.treasury asset + (colAmt : Int)
        ∧ s'.debitPool = s.debitPool + cfg.debitToStable asset (debAmt : Int))
      ∧ (s.balances cfg.escrow asset < (colAmt : Int)
        → confiscate_collateral_and_debit cfg who asset colAmt debAmt s
            = .error .InsufficientBalance
          ∧ commit (confiscate_collateral_and_debit cfg who asset colAmt debAmt s) s
            = s) := by
  constructor
  · intro s' hok
    unfold confiscate_collateral_and_debit at hok
    split at hok
    · exact absurd hok (by simp)
    next t1 heq =>
    have hfr := transferBal_ok_frame heq
    have hbal := transferBal_ok_balances heq
    have hp2 : ({ t1 with
        debitPool := t1.debitPool + cfg.debitToStable asset (debAmt : Int) } :
          LendState).positions = s.positions := hfr.1
    obtain ⟨-, rfl⟩ := update_loan_eq_ok_iff.1 hok
    refine ⟨?_, ?_, ?_⟩
    · rw [updApply_positions, posLookup_posStore_self, hp2]
      simp only [Position.mk.injEq]
      omega
    · rw [updApply_balances]
      show t1.balances cfg.treasury asset = s.balances cfg.treasury asset + (colAmt : Int)
      rw [hbal]
      simp [Ne.symm hwf]
    · rw [updApply_debitPool]
      show t1.debitPool + cfg.debitToStable asset (debAmt : Int)
        = s.debitPool + cfg.debitToStable asset (debAmt : Int)
      rw [hfr.2.2.2]
  · intro hlt
    have hend : transferBal cfg.escrow cfg.treasury asset colAmt s
        = .error .InsufficientBalance := by
      unfold transferBal
      rw [if_pos hlt]
    constructor
    · unfold confiscate_collateral_and_debit
      rw [hend]
    · unfold confiscate_collateral_and_debit
      rw [hend]
      rfl

set_option maxRecDepth 8192 in
/-- Witness for C6: the confiscation of test
`confiscate_collateral_and_debit_work` -- seizing `(300, 200)` from
`ALICE`'s `(500, 300)` position once the escrow holds 500 `BTC`. -/
theorem confiscate_collateral_and_debit_spec_witness :
    ((ESCROW : AccountId) ≠ TREASURY)
      ∧ ((∀ s', confiscate_collateral_and_debit testConfig ALICE BTC 300 200 confSetup
            = .ok s'
        → posLookup s'.positions (BTC, ALICE)
            = ⟨(posLookup confSetup.positions (BTC, ALICE)).collateral - (300 : Int),
                (posLookup confSetup.positions (BTC, ALICE)).debit - (200 : Int)⟩
          ∧ s'.balances TREASURY BTC = confSetup.balances TREASURY BTC + (300 : Int)
          ∧ s'.debitPool = confSetup.debitPool + testConfig.debitToStable BTC (200 : Int))
        ∧ (confSetup.balances ESCROW BTC < (300 : Int)
          → confiscate_collateral_and_debit testConfig ALICE BTC 300 200 confSetup
              = .error .InsufficientBalance
            ∧ commit (confiscate_collateral_and_debit testConfig ALICE BTC 300 200 confSetup)
                confSetup = confSetup)) :=
  ⟨by decide,
    confiscate_collateral_and_debit_spec testConfig ALICE BTC 300 200 confSetup (by decide)⟩

set_option maxRecDepth 8192 in
/-- Counterexample to C6 as stated: the test confiscation of debit 200 grows
the treasury debt pool by 100 (the configured conversion of 200 debit
units), not by the raw 200 the claim requires. -/
theorem confiscate_debit_pool_counterexample :
    (confiscate_collateral_and_debit testConfig ALICE BTC 300 200 confSetup).isOk = true
      ∧ (commit (confiscate_collateral_and_debit testConfig ALICE BTC 300 200 confSetup)
          confSetup).debitPool = 100
      ∧ confSetup.debitPool = 0
      ∧ ((100 : Int) ≠ 0 + 200) :=
  ⟨by decide, by decide, by decide, by decide⟩

/-- Claim C7 (amended, for distinct accounts): a successful
`transfer_loan(from, to, asset)` between two DISTINCT accounts zeroes
`from`'s position (removing its record), credits `to` with exactly `from`'s
prior collateral and debit, and preserves the componentwise sum of the two
accounts' positions. For `from = to` the call also succeeds but leaves the
nonzero position in place, so the original unrestricted claim fails. -/
theorem transfer_loan_moves_whole_position (src dst : AccountId) (asset : AssetId)
    (s s' : LendState) (hne : src ≠ dst)
    (h : transfer_loan src dst asset s = .ok s') :
    posLookup s'.positions (asset, src) = Position.zero
      ∧ containsKey s'.positions (asset, src) = false
      ∧ posLookup s'.positions (asset, dst)
        = ⟨(posLookup s.positions (asset, dst)).collateral
              + (posLookup s.positions (asset, src)).collateral,
            (posLookup s.positions (asset, dst)).debit
              + (posLookup s.positions (asset, src)).debit⟩
      ∧ (posLookup s'.positions (asset, src)).collateral
            + (posLookup s'.positions (asset, dst)).collateral
          = (posLookup s.positions (asset, src)).collateral
            + (posLookup s.positions (asset, dst)).collateral
      ∧ (posLookup s'.positions (asset, src)).debit
            + (posLookup s'.positions (asset, dst)).debit
          = (posLookup s.positions (asset, src)).debit
            + (posLookup s.positions (asset, dst)).debit := by
  have hks : ((asset, src) : PosKey) ≠ (asset, dst) := by
    intro hk
    exact hne (congrArg Prod.snd hk)
  have hkd : ((asset, dst) : PosKey) ≠ (asset, src) := fun hk => hks hk.symm
  unfold transfer_loan at h
  simp only [] at h
  split at h
  · exact absurd h (by simp)
  next t1 heq =>
  obtain ⟨-, rfl⟩ := update_loan_eq_ok_iff.1 heq
  have hsrc1 : posLookup (updApply dst asset
      (posLookup s.positions (asset, src)).collateral
      (posLookup s.positions (asset, src)).debit s).positions (asset, src)
      = posLookup s.positions (asset, src) := by
    rw [updApply_positions, posLookup_posStore_ne hks]
  obtain ⟨-, rfl⟩ := update_loan_eq_ok_iff.1 h
  have hsrc : posLookup (updApply src asset
        (-(posLookup s.positions (asset, src)).collateral)
        (-(posLookup s.positions (asset, src)).debit)
        (updApply dst asset (posLookup s.positions (asset, src)).collateral
          (posLookup s.positions (asset, src)).debit s)).positions (asset, src)
      = Position.zero := by
    rw [updApply_positions, posLookup_posStore_self, hsrc1]
    simp only [Position.zero, Position.mk.injEq]
    omega
  have hdst : posLookup (updApply src asset
        (-(posLookup s.positions (asset, src)).collateral)
        (-(posLookup s.positions (asset, src)).debit)
        (updApply dst asset (posLookup s.positions (asset, src)).collateral
          (posLookup s.positions (asset, src)).debit s)).positions (asset, dst)
      = ⟨(posLookup s.positions (asset, dst)).collateral
            + (posLookup s.positions (asset, src)).collateral,
          (posLookup s.positions (asset, dst)).debit
            + (posLookup s.positions (asset, src)).debit⟩ := by
    rw [updApply_positions, posLookup_posStore_ne hkd, updApply_positions,
      posLookup_posStore_self]
  have hck : containsKey (updApply src asset
        (-(posLookup s.positions (asset, src)).collateral)
        (-(posLookup s.positions (asset, src)).debit)
        (updApply dst asset (posLookup s.positions (asset, src)).collateral
          (posLookup s.positions (asset, src)).debit s)).positions (asset, src)
      = false := by
    rw [updApply_positions, containsKey_posStore_self, hsrc1]
    refine decide_eq_false (fun hk => hk ?_)
    simp only [Position.zero, Position.mk.injEq]
    omega
  refine ⟨hsrc, hck, hdst, ?_, ?_⟩
  · rw [hsrc, hdst]
    simp only [Position.zero]
    omega
  · rw [hsrc, hdst]
    simp only [Position.zero]
    omega

set_option maxRecDepth 8192 in
/-- Witness for C7: the transfer of test `transfer_loan_should_work` --
`ALICE`'s `(400, 500)` moves wholly onto `BOB`'s `(100, 600)`. -/
theorem transfer_loan_moves_whole_position_witness :
    ((ALICE : AccountId) ≠ BOB)
      ∧ (posLookup (commit (transfer_loan ALICE BOB BTC xferSetup2) xferSetup2).positions
            (BTC, ALICE) = Position.zero
        ∧ containsKey (commit (transfer_loan ALICE BOB BTC xferSetup2) xferSetup2).positions
            (BTC, ALICE) = false
        ∧ posLookup (commit (transfer_loan ALICE BOB BTC xferSetup2) xferSetup2).positions
            (BTC, BOB)
          = ⟨(posLookup xferSetup2.positions (BTC, BOB)).collateral
                + (posLookup xferSetup2.positions (BTC, ALICE)).collateral,
              (posLookup xferSetup2.positions (BTC, BOB)).debit
                + (posLookup xferSetup2.positions (BTC, ALICE)).debit⟩
        ∧ (posLookup (commit (transfer_loan ALICE BOB BTC xferSetup2) xferSetup2).positions
              (BTC, ALICE)).collateral
            + (posLookup (commit (transfer_loan ALICE BOB BTC xferSetup2) xferSetup2).positions
              (BTC, BOB)).collateral
          = (posLookup xferSetup2.positions (BTC, ALICE)).collateral
            + (posLookup xferSetup2.positions (BTC, BOB)).collateral
        ∧ (posLookup (commit (transfer_loan ALICE BOB BTC xferSetup2) xferSetup2).positions
              (BTC, ALICE)).debit
            + (posLookup (commit (transfer_loan ALICE BOB BTC xferSetup2) xferSetup2).positions
              (BTC, BOB)).debit
          = (posLookup xferSetup2.positions (BTC, ALICE)).debit
            + (posLookup xferSetup2.positions (BTC, BOB)).debit) :=
  ⟨by decide,
    transfer_loan_moves_whole_position ALICE BOB BTC xferSetup2
      (commit (transfer_loan ALICE BOB BTC xferSetup2) xferSetup2) (by decide) rfl⟩

set_option maxRecDepth 8192 in
/-- Counterexample to C7 as stated: transferring a loan from an account to
itself succeeds but does NOT zero the account's position -- `ALICE`'s
`(400, 500)` survives a self-transfer intact. -/
theorem transfer_loan_self_counterexample :
    (transfer_loan ALICE ALICE BTC xferSetup).isOk = true
      ∧ posLookup (commit (transfer_loan ALICE ALICE BTC xferSetup) xferSetup).positions
          (BTC, ALICE) = ⟨400, 500⟩
      ∧ ((⟨400, 500⟩ : Position) ≠ Position.zero) :=
  ⟨by decide, by decide, by decide⟩

/-- Claim C8 (amended): a successful `adjust_position` with a positive debit
delta credits the account's stablecoin balance with the CONVERTED value of
the delta under the configured debit-exchange rate (`debit_delta / 2` in the
test configuration), not with the raw `debit_delta` itself. -/
theorem adjust_position_disburses_converted (cfg : Config) (who : AccountId)
    (asset : AssetId) (cd dd : Int) (s s' : LendState)
    (hst : asset ≠ cfg.stableAsset) (hdd : 0 < dd)
    (h : adjust_position cfg who asset cd dd s = .ok s') :
    s'.balances who cfg.stableAsset
      = s.balances who cfg.stableAsset + cfg.debitToStable asset dd := by
  unfold adjust_position at h
  simp only [] at h
  split at h
  · exact absurd h (by simp)
  split at h
  · exact absurd h (by simp)
  split at h
  · exact absurd h (by simp)
  split at h
  · exact absurd h (by simp)
  next t1 heq =>
  split at h
  · exact absurd h (by simp)
  next t2 heq2 =>
  simp only [Except.ok.injEq] at h
  subst h
  show (if who = who ∧ cfg.stableAsset = cfg.stableAsset then
      t2.balances who cfg.stableAsset + cfg.debitToStable asset dd
    else t2.balances who cfg.stableAsset)
    = s.balances who cfg.stableAsset + cfg.debitToStable asset dd
  rw [if_pos ⟨rfl, rfl⟩]
  have ht2 : t2.balances who cfg.stableAsset = t1.balances who cfg.stableAsset := by
    split at heq2
    · rw [transferBal_ok_balances heq2]
      simp [Ne.symm hst]
    · rw [transferBal_ok_balances heq2]
      simp [Ne.symm hst]
  rw [ht2]
  obtain ⟨-, rfl⟩ := update_loan_eq_ok_iff.1 heq
  rw [updApply_balances]

set_option maxRecDepth 8192 in
/-- Witness for C8: the successful adjustment of test
`adjust_position_should_work` -- debit delta 300 credits `ALICE` with 150
stablecoin, the converted value. -/
theorem adjust_position_disburses_converted_witness :
    ((BTC : AssetId) ≠ XUSD) ∧ ((0 : Int) < 300)
      ∧ (commit (adjust_position testConfig ALICE BTC 500 300 testInit) testInit).balances
          ALICE XUSD
        = testInit.balances ALICE XUSD + testConfig.debitToStable BTC 300 :=
  ⟨by decide, by decide,
    adjust_position_disburses_converted testConfig ALICE BTC 500 300 testInit
      (commit (adjust_position testConfig ALICE BTC 500 300 testInit) testInit)
      (by decide) (by decide) rfl⟩

set_option maxRecDepth 8192 in
/-- Counterexample to C8 as stated: the adjustment with debit delta 300
credits `ALICE` exactly 150 stablecoin, not 300. -/
theorem adjust_position_disbursement_counterexample :
    (adjust_position testConfig ALICE BTC 500 300 testInit).isOk = true
      ∧ (commit (adjust_position testConfig ALICE BTC 500 300 testInit) testInit).balances
          ALICE XUSD = 150
      ∧ testInit.balances ALICE XUSD = 0
      ∧ ((150 : Int) ≠ 0 + 300) :=
  ⟨by decide, by decide, by decide, by decide⟩

set_option maxRecDepth 8192 in
/-- Claim C10: under the test configuration both composite operations
convert debit units to stablecoin value through the one configured rate --
one half for `BTC`: the adjustment's debit delta of 300 credits exactly
`debitToStable BTC 300 = 150` stablecoin, and the confiscation of debit 200
grows the debt pool by exactly `debitToStable BTC 200 = 100`. -/
theorem debit_rate_shared_by_both_ops (d : Int) :
    testConfig.debitToStable BTC d = d / 2
      ∧ (commit (adjust_position testConfig ALICE BTC 500 300 testInit) testInit).balances
          ALICE XUSD
        = testInit.balances ALICE XUSD + testConfig.debitToStable BTC 300
      ∧ (commit (confiscate_collateral_and_debit testConfig ALICE BTC 300 200 confSetup)
          confSetup).debitPool
        = confSetup.debitPool + testConfig.debitToStable BTC 200
      ∧ testConfig.debitToStable BTC 300 = 150
      ∧ testConfig.debitToStable BTC 200 = 100 := by
  refine ⟨?_, by decide, by decide, by decide, by decide⟩
  simp [testConfig]

/-- Claim C9: `update_loan` performs no balance movement -- whether it
succeeds or fails, every free balance of every account and asset in the
committed state equals its prior value. -/
theorem update_loan_preserves_balances (who : AccountId) (asset : AssetId)
    (cd dd : Int) (s : LendState) (b : AccountId) (c : AssetId) :
    (commit (update_loan who asset cd dd s) s).balances b c = s.balances b c := by
  cases h : updChecks who asset cd dd s with
  | some e => rw [update_loan, h]; rfl
  | none => rw [update_loan, h]; rfl

end ShadowsLend
